import Mathlib

set_option maxRecDepth 8000

/-!
Shallow embedding of the AI-Visual-De-identification repository
(src/utils/detect_utils.py, src/utils/redact_utils.py, src/utils/ocr_utils.py,
src/app.py) in Lean 4, together with theorems settling the frozen claims
about its specification.

Conventions of the embedding:
* Python `str` values that are processed character-by-character are modelled
  as `List Char`; the character classes of Python's `re` module (`\d`, `\w`,
  `\s`, `\b`, case mapping) are modelled by their ASCII behaviour, which is
  what all texts appearing in the claims use.
* Python `int` is modelled by `Int` (Python integers are unbounded).
* Pixel data (numpy `ndarray` of BGR triples / PIL RGB) is modelled as a
  structure carrying the two dimensions and a total pixel function.
* External library primitives that the code calls are modelled from their
  documented semantics: `cv2.GaussianBlur` is kept abstract (a parameter of
  the model), `cv2.rectangle` with negative thickness fills the rectangle
  spanned by its two corner points (in either order, both corners included)
  clipped to the image, and numpy basic slicing interprets a negative stop
  index as counting from the end of the axis.
* The float expression `int(0.03 * w)` is modelled exactly under IEEE-754
  binary64 round-to-nearest-even semantics (overflow ignored; it cannot
  occur for any realistic box width).
-/

/-! ## Characters and strings (ASCII model of Python's str/re behaviour) -/

abbrev Str := List Char

/-- ASCII model of the regex class `\d`. -/
def isDigitC (c : Char) : Bool := '0' ≤ c && c ≤ '9'

/-- ASCII uppercase letter. -/
def isUpperC (c : Char) : Bool := 'A' ≤ c && c ≤ 'Z'

/-- ASCII lowercase letter. -/
def isLowerC (c : Char) : Bool := 'a' ≤ c && c ≤ 'z'

/-- ASCII letter. -/
def isAlphaC (c : Char) : Bool := isUpperC c || isLowerC c

/-- ASCII model of the regex class `\w` (word character). -/
def isWordC (c : Char) : Bool := isAlphaC c || isDigitC c || c = '_'

/-- ASCII model of the regex class `\s` (whitespace): space, tab, newline,
carriage return, vertical tab, form feed. -/
def isSpaceC (c : Char) : Bool :=
  c = ' ' || c = '\t' || c = '\n' || c = '\r' || c = '\x0b' || c = '\x0c'

/-- ASCII hexadecimal digit (for the MAC pattern). -/
def isHexC (c : Char) : Bool := isDigitC c || ('A' ≤ c && c ≤ 'F') || ('a' ≤ c && c ≤ 'f')

/-- ASCII model of Python's `str.lower()`. -/
def pyLower (s : Str) : Str := s.map Char.toLower

/-- `pre t s` is true when `t` is an initial segment of `s`
(helper for the model of Python's substring operator `in`). -/
def pre : Str → Str → Bool
  | [], _ => true
  | _ :: _, [] => false
  | a :: as, b :: bs => a = b && pre as bs

/-- Model of Python's `t in s` on strings: `t` occurs contiguously in `s`. -/
def isSub : Str → Str → Bool
  | t, [] => pre t []
  | t, c :: s => pre t (c :: s) || isSub t s

/-- Model of `re.sub(r"\W+", "", s)`: remove every non-word character. -/
def stripNonWord (s : Str) : Str := s.filter isWordC

/-- Model of Python's `str.strip()` (ASCII whitespace). -/
def pyStrip (s : Str) : Str :=
  ((s.dropWhile isSpaceC).reverse.dropWhile isSpaceC).reverse

/-- Helper for `pySplitlines`: `cur` holds the current line reversed. -/
def pySplitlinesGo (cur : Str) : Str → List Str
  | [] => [cur.reverse]
  | c :: rest =>
    if c = '\n' then
      cur.reverse :: (match rest with
        | [] => []
        | _ :: _ => pySplitlinesGo [] rest)
    else
      pySplitlinesGo (c :: cur) rest

/-- Model of Python's `str.splitlines()` for texts whose only line break is
`'\n'` (the only break character the pipeline ever produces, since the page
text is built by `"\n".join(...)`): no trailing empty line is produced. -/
def pySplitlines (s : Str) : List Str :=
  match s with
  | [] => []
  | _ :: _ => pySplitlinesGo [] s

/-! ## Data model: boxes, findings, OCR lines -/

/-- A pixel-space box `[x, y, w, h]` as used throughout the repository
(`detect_utils.py`, `redact_utils.py`). Coordinates are Python ints. -/
structure Box where
  x : Int
  y : Int
  w : Int
  h : Int
deriving DecidableEq, Repr

/-- The sentinel "unlocated" box `[0, 0, 0, 0]` appended by
`align_text_findings_to_boxes` when no OCR line matches. -/
def sentinelBox : Box := ⟨0, 0, 0, 0⟩

/-- An unlocated text finding as produced by `regex_entities`:
`{"label": ..., "span": [start, end], "matched": ...}`. -/
structure TFinding where
  label : String
  span : Nat × Nat
  matched : Str
deriving DecidableEq, Repr

/-- A located finding as produced by `align_text_findings_to_boxes`
(and, in the model, by the visual detectors): `{"label"/"type": ...,
"box": [x,y,w,h], "matched": ...}`. Only the `box` field is consumed by
the Redaction Applier. -/
structure Finding where
  label : String
  box : Box
  matched : Str
deriving DecidableEq, Repr

/-- An OCR line `{"text": ..., "box": [x,y,w,h], "conf": ...}` as produced by
`ocr_with_boxes` (`ocr_utils.py`). The `conf` field is read by none of the
modelled operations and is omitted. -/
structure Line where
  text : Str
  box : Box
deriving DecidableEq, Repr

/-! ## Spatial Aligner (detect_utils.py, align_text_findings_to_boxes) -/

/-- One iteration of the `for tf in text_findings` loop of
`align_text_findings_to_boxes`: try exact substring containment against the
OCR lines in order, then normalized containment (non-word characters
stripped, lowercased, at least 4 characters), else the sentinel box. -/
def alignOne (ocr_lines : List Line) (tf : TFinding) : Finding :=
  let target := tf.matched
  match ocr_lines.find? (fun l => !target.isEmpty && isSub target l.text) with
  | some l => ⟨tf.label, l.box, target⟩
  | none =>
    let t_clean := stripNonWord (pyLower target)
    match ocr_lines.find? (fun l =>
        let l_clean := stripNonWord (pyLower l.text)
        !t_clean.isEmpty && isSub t_clean l_clean && decide (4 ≤ t_clean.length)) with
    | some l => ⟨tf.label, l.box, target⟩
    | none => ⟨tf.label, sentinelBox, target⟩

/-- `align_text_findings_to_boxes(text_findings, ocr_lines)`: the Python loop
appends exactly one located finding per input finding, in input order. -/
def align_text_findings_to_boxes (text_findings : List TFinding)
    (ocr_lines : List Line) : List Finding :=
  text_findings.map (alignOne ocr_lines)

example :
    align_text_findings_to_boxes
      [⟨"EMAIL", (0, 6), "a@b.co".toList⟩]
      [⟨"xa@b.cox".toList, ⟨1, 2, 3, 4⟩⟩] =
      [⟨"EMAIL", ⟨1, 2, 3, 4⟩, "a@b.co".toList⟩] := by decide

example :
    align_text_findings_to_boxes
      [⟨"EMAIL", (0, 6), "a@b.co".toList⟩]
      [⟨"nothing".toList, ⟨1, 2, 3, 4⟩⟩] =
      [⟨"EMAIL", sentinelBox, "a@b.co".toList⟩] := by decide

example :
    align_text_findings_to_boxes
      [⟨"PAN", (0, 5), "AB-12".toList⟩]
      [⟨"xx ab12 yy".toList, ⟨5, 6, 7, 8⟩⟩] =
      [⟨"PAN", ⟨5, 6, 7, 8⟩, "AB-12".toList⟩] := by decide

/-! ## A model of the Python `re` subset used by detect_utils.PATTERNS

The engine is a standard backtracking matcher with Python's preference
order: alternation prefers the left branch, greedy repetition prefers the
longer take, a match is the leftmost one and, at a given start position,
the first one in backtracking order. Lookarounds appear in the source
patterns only as the one-character assertions `(?<!\d)` and `(?!\d)`, which
are modelled directly. The `fuel` argument only serves termination; it is
chosen large enough for every concrete evaluation in this file (every
repetition body of every source pattern consumes at least one character,
and the empty-iteration guard stops width-zero repetition). -/

/-- Regular-expression ASTs for the source patterns. -/
inductive RE where
  | eps : RE
  | cls (p : Char → Bool) : RE
  | cat (a b : RE) : RE
  | alt (a b : RE) : RE
  | rep (a : RE) (lo : Nat) (hi : Option Nat) : RE
  | nla (p : Char → Bool) : RE
  | nlb (p : Char → Bool) : RE
  | wb : RE

/-- Character of `s` at position `i`, if any. -/
def getc (s : Str) (i : Nat) : Option Char := s.drop i |>.head?

/-- Whether the position left of `i` (resp. `i` itself) holds a word
character; out-of-range counts as non-word (for `\b`). -/
def wordAt (s : Str) (i : Nat) : Bool :=
  match getc s i with
  | some c => isWordC c
  | none => false

/-- Backtracking matcher: `mch s fuel re i k` tries to match `re` in `s`
starting at position `i` and passes the end position to the continuation
`k`, returning the first success in Python's preference order. -/
def mch (s : Str) : Nat → RE → Nat → (Nat → Option Nat) → Option Nat
  | 0, _, _, _ => none
  | _ + 1, .eps, i, k => k i
  | _ + 1, .cls p, i, k =>
    match getc s i with
    | some c => if p c then k (i + 1) else none
    | none => none
  | fuel + 1, .cat a b, i, k => mch s fuel a i (fun j => mch s fuel b j k)
  | fuel + 1, .alt a b, i, k =>
    match mch s fuel a i k with
    | some r => some r
    | none => mch s fuel b i k
  | _ + 1, .nla p, i, k =>
    match getc s i with
    | some c => if p c then none else k i
    | none => k i
  | _ + 1, .nlb p, i, k =>
    if i = 0 then k i
    else
      match getc s (i - 1) with
      | some c => if p c then none else k i
      | none => k i
  | _ + 1, .wb, i, k =>
    if (if i = 0 then false else wordAt s (i - 1)) ≠ wordAt s i then k i else none
  | fuel + 1, .rep a lo hi, i, k =>
    match lo with
    | lo' + 1 => mch s fuel a i (fun j => mch s fuel (.rep a lo' (hi.map (· - 1))) j k)
    | 0 =>
      match hi with
      | some 0 => k i
      | _ =>
        match mch s fuel a i
            (fun j => if i < j then mch s fuel (.rep a 0 (hi.map (· - 1))) j k else none) with
        | some r => some r
        | none => k i

/-- Fuel bound for one match attempt: generously larger than the recursion
depth any pattern of `detect_utils.PATTERNS` can reach on `s`. -/
def matchFuel (s : Str) : Nat := (s.length + 2) * 1000

/-- The end position of the preferred match of `re` at position `i` of `s`
(the model of a successful `re.match` anchored at `i`). -/
def matchEnd (re : RE) (s : Str) (i : Nat) : Option Nat :=
  mch s (matchFuel s) re i some

/-- Model of `pattern.finditer(text)`: the list of `(start, end)` spans of
the non-overlapping matches, scanning left to right and restarting after
each match (advancing one position after a width-zero match, as Python
does). -/
def pyFinditerGo (re : RE) (s : Str) : Nat → Nat → List (Nat × Nat)
  | 0, _ => []
  | fuel + 1, i =>
    if s.length < i then []
    else
      match matchEnd re s i with
      | some j => (i, j) :: (if j = i then pyFinditerGo re s fuel (i + 1)
                             else pyFinditerGo re s fuel j)
      | none => if i = s.length then [] else pyFinditerGo re s fuel (i + 1)

/-- All `(start, end)` spans produced by `pattern.finditer(text)`. -/
def pyFinditer (re : RE) (s : Str) : List (Nat × Nat) :=
  pyFinditerGo re s (s.length + 2) 0

/-- Model of `re.search(pattern, line)` used as a boolean. -/
def pySearch (re : RE) (s : Str) : Bool := !(pyFinditer re s).isEmpty

/-- Substring `s[a:b]` (for `m.group(0)` with span `(a, b)`). -/
def pySlice (s : Str) (a b : Nat) : Str := (s.drop a).take (b - a)

/-! Constructors mirroring the concrete regex syntax. -/

/-- A single literal character. -/
def lit1 (c : Char) : RE := .cls (fun d => d = c)

/-- A literal string. -/
def litS (s : String) : RE := s.toList.foldr (fun c r => .cat (lit1 c) r) .eps

/-- A literal string under `re.I` (case-insensitive). -/
def litCI (s : String) : RE :=
  s.toList.foldr (fun c r => .cat (.cls (fun d => d.toLower = c.toLower)) r) .eps

/-- Sequence of regexes. -/
def seqR (l : List RE) : RE := l.foldr .cat .eps

/-- Alternation of a non-empty list, preferring earlier entries. -/
def altL (l : List RE) : RE := l.foldr .alt (.cls (fun _ => false))

/-- `r?` -/
def optR (r : RE) : RE := .rep r 0 (some 1)

/-- `r+` -/
def plusR (r : RE) : RE := .rep r 1 none

/-- `r*` -/
def starR (r : RE) : RE := .rep r 0 none

/-- `\d` -/
def reD : RE := .cls isDigitC

/-- `[-\s]` -/
def reSepC : RE := .cls (fun c => c = '-' || isSpaceC c)

/-- `\s` -/
def reSp : RE := .cls isSpaceC

example : pyFinditer (seqR [.wb, plusR (.cls isAlphaC), .wb]) "ab cde".toList =
    [(0, 2), (3, 6)] := by decide

example : matchEnd (seqR [.nlb isDigitC, .rep reD 3 (some 3), .nla isDigitC])
    "a555-".toList 1 = some 4 := by decide

/-! ## The fixed pattern table (detect_utils.py, PATTERNS) -/

/-- `EMAIL`: `\b[a-zA-Z0-9._%+\-]+@[a-zA-Z0-9.\-]+\.[A-Za-z]{2,}\b` -/
def reEMAIL : RE := seqR [.wb,
  plusR (.cls (fun c => isAlphaC c || isDigitC c || c = '.' || c = '_' || c = '%' || c = '+' || c = '-')),
  lit1 '@',
  plusR (.cls (fun c => isAlphaC c || isDigitC c || c = '.' || c = '-')),
  lit1 '.', .rep (.cls isAlphaC) 2 none, .wb]

/-- `PHONE`: `(?<!\d)(?:\+?\d{1,3}[-\s]?)?(?:\(?\d{3}\)?[-\s]?){1}\d{3}[-\s]?\d{4}(?!\d)` -/
def rePHONE : RE := seqR [.nlb isDigitC,
  optR (seqR [optR (lit1 '+'), .rep reD 1 (some 3), optR reSepC]),
  seqR [optR (lit1 '('), .rep reD 3 (some 3), optR (lit1 ')'), optR reSepC],
  .rep reD 3 (some 3), optR reSepC, .rep reD 4 (some 4), .nla isDigitC]

/-- `AADHAAR`: `(?<!\d)(?:\d{4}[-\s]?\d{4}[-\s]?\d{4})(?!\d)` -/
def reAADHAAR : RE := seqR [.nlb isDigitC,
  .rep reD 4 (some 4), optR reSepC, .rep reD 4 (some 4), optR reSepC, .rep reD 4 (some 4),
  .nla isDigitC]

/-- `PAN`: `\b[A-Z]{5}[0-9]{4}[A-Z]\b` -/
def rePAN : RE := seqR [.wb, .rep (.cls isUpperC) 5 (some 5), .rep reD 4 (some 4),
  .cls isUpperC, .wb]

/-- `GSTIN`: `\b[0-9]{2}[A-Z]{5}[0-9]{4}[A-Z][1-9A-Z]Z[0-9A-Z]\b` -/
def reGSTIN : RE := seqR [.wb, .rep reD 2 (some 2), .rep (.cls isUpperC) 5 (some 5),
  .rep reD 4 (some 4), .cls isUpperC,
  .cls (fun c => ('1' ≤ c && c ≤ '9') || isUpperC c), lit1 'Z',
  .cls (fun c => isDigitC c || isUpperC c), .wb]

/-- `IFSC`: `\b[A-Z]{4}0[A-Z0-9]{6}\b` -/
def reIFSC : RE := seqR [.wb, .rep (.cls isUpperC) 4 (some 4), lit1 '0',
  .rep (.cls (fun c => isUpperC c || isDigitC c)) 6 (some 6), .wb]

/-- `SSN`: `\b\d{3}-\d{2}-\d{4}\b` -/
def reSSN : RE := seqR [.wb, .rep reD 3 (some 3), lit1 '-', .rep reD 2 (some 2),
  lit1 '-', .rep reD 4 (some 4), .wb]

/-- `NPI`: `\b\d{10}\b` -/
def reNPI : RE := seqR [.wb, .rep reD 10 (some 10), .wb]

/-- `PASSPORT`: `\b[A-PR-WYa-pr-wy][0-9]{7,8}\b` -/
def rePASSPORT : RE := seqR [.wb,
  .cls (fun c => isAlphaC c &&
    !(c = 'Q' || c = 'X' || c = 'Z' || c = 'q' || c = 'x' || c = 'z')),
  .rep reD 7 (some 8), .wb]

/-- `DL_GENERIC`: `\b[A-Z0-9]{6,15}\b` -/
def reDL : RE := seqR [.wb, .rep (.cls (fun c => isUpperC c || isDigitC c)) 6 (some 15), .wb]

/-- `CREDIT_CARD`: `(?:(?:\d{4}[- ]?){3}\d{4})` -/
def reCC : RE := seqR [
  .rep (seqR [.rep reD 4 (some 4), optR (.cls (fun c => c = '-' || c = ' '))]) 3 (some 3),
  .rep reD 4 (some 4)]

/-- `CVV`: `(?<!\d)\d{3}(?!\d)` -/
def reCVV : RE := seqR [.nlb isDigitC, .rep reD 3 (some 3), .nla isDigitC]

/-- `BANK_ACC`: `(?<!\d)\d{9,18}(?!\d)` -/
def reBANK : RE := seqR [.nlb isDigitC, .rep reD 9 (some 18), .nla isDigitC]

/-- The year alternative `(?:19|20)` of the DOB pattern. -/
def reYY : RE := .alt (litS "19") (litS "20")

/-- `DOB` (with `re.I`): `\b(?:DOB|Date of Birth|Birth Date)\s*[:\-]?\s*(?:\d{1,2}[/\-]\d{1,2}[/\-](?:19|20)\d{2}|[A-Za-z]{3,9}\s+\d{1,2},\s+(?:19|20)\d{2})\b` -/
def reDOB : RE := seqR [.wb,
  altL [litCI "DOB", litCI "Date of Birth", litCI "Birth Date"],
  starR reSp, optR (.cls (fun c => c = ':' || c = '-')), starR reSp,
  .alt
    (seqR [.rep reD 1 (some 2), .cls (fun c => c = '/' || c = '-'),
      .rep reD 1 (some 2), .cls (fun c => c = '/' || c = '-'), reYY, .rep reD 2 (some 2)])
    (seqR [.rep (.cls isAlphaC) 3 (some 9), plusR reSp, .rep reD 1 (some 2),
      lit1 ',', plusR reSp, reYY, .rep reD 2 (some 2)]),
  .wb]

/-- `ICD10`: `\b[A-TV-Z][0-9][0-9AB](?:\.[0-9A-TV-Z]{1,4})?\b` -/
def reICD : RE := seqR [.wb, .cls (fun c => isUpperC c && c ≠ 'U'), reD,
  .cls (fun c => isDigitC c || c = 'A' || c = 'B'),
  optR (seqR [lit1 '.',
    .rep (.cls (fun c => isDigitC c || (isUpperC c && c ≠ 'U'))) 1 (some 4)]),
  .wb]

/-- One octet alternative `(?:25[0-5]|2[0-4]\d|[01]?\d?\d)` of the IP pattern. -/
def reOctet : RE := altL [
  seqR [litS "25", .cls (fun c => '0' ≤ c && c ≤ '5')],
  seqR [lit1 '2', .cls (fun c => '0' ≤ c && c ≤ '4'), reD],
  seqR [optR (.cls (fun c => c = '0' || c = '1')), optR reD, reD]]

/-- `IP`: `\b(?:(?:25[0-5]|2[0-4]\d|[01]?\d?\d)\.){3}(?:25[0-5]|2[0-4]\d|[01]?\d?\d)\b` -/
def reIP : RE := seqR [.wb, .rep (seqR [reOctet, lit1 '.']) 3 (some 3), reOctet, .wb]

/-- `MAC`: `\b(?:[0-9A-Fa-f]{2}[:\-]){5}[0-9A-Fa-f]{2}\b` -/
def reMAC : RE := seqR [.wb,
  .rep (seqR [.rep (.cls isHexC) 2 (some 2), .cls (fun c => c = ':' || c = '-')]) 5 (some 5),
  .rep (.cls isHexC) 2 (some 2), .wb]

/-- `URL`: `https?://[^\s]+` -/
def reURL : RE := seqR [litS "http", optR (lit1 's'), litS "://",
  plusR (.cls (fun c => !isSpaceC c))]

/-- `INSURANCE_ID` (with `re.I`): `\b(?:Member\s*ID|Policy\s*No\.?|Subscriber\s*ID|Payer\s*ID|Group\s*No\.?)\s*[:\-]?\s*[A-Z0-9\-]{5,20}\b` -/
def reINS : RE := seqR [.wb,
  altL [seqR [litCI "Member", starR reSp, litCI "ID"],
    seqR [litCI "Policy", starR reSp, litCI "No", optR (lit1 '.')],
    seqR [litCI "Subscriber", starR reSp, litCI "ID"],
    seqR [litCI "Payer", starR reSp, litCI "ID"],
    seqR [litCI "Group", starR reSp, litCI "No", optR (lit1 '.')]],
  starR reSp, optR (.cls (fun c => c = ':' || c = '-')), starR reSp,
  .rep (.cls (fun c => isAlphaC c || isDigitC c || c = '-')) 5 (some 20), .wb]

/-- The ordered pattern table `PATTERNS` of detect_utils.py (Python dicts
iterate in insertion order). -/
def PATTERNS : List (String × RE) :=
  [("EMAIL", reEMAIL), ("PHONE", rePHONE), ("AADHAAR", reAADHAAR), ("PAN", rePAN),
   ("GSTIN", reGSTIN), ("IFSC", reIFSC), ("SSN", reSSN), ("NPI", reNPI),
   ("PASSPORT", rePASSPORT), ("DL_GENERIC", reDL), ("CREDIT_CARD", reCC),
   ("CVV", reCVV), ("BANK_ACC", reBANK), ("DOB", reDOB), ("ICD10", reICD),
   ("IP", reIP), ("MAC", reMAC), ("URL", reURL), ("INSURANCE_ID", reINS)]

/-- The address-indicator word list `ADDRESS_HINT_WORDS` of detect_utils.py. -/
def ADDRESS_HINT_WORDS : List Str :=
  ["address".toList, "addr.".toList, "street".toList, "st.".toList, "road".toList,
   "rd.".toList, "lane".toList, "ln.".toList, "avenue".toList, "ave.".toList,
   "boulevard".toList, "blvd".toList, "city".toList, "state".toList, "zip".toList,
   "pincode".toList, "pin".toList]

/-- The street-address heuristic pattern of `regex_entities`:
`\d{1,5}\s+[A-Za-z0-9.\- ]+,\s*[A-Za-z.\- ]+[, ]+\w{2}\s+\d{4,6}` -/
def reStreet : RE := seqR [.rep reD 1 (some 5), plusR reSp,
  plusR (.cls (fun c => isAlphaC c || isDigitC c || c = '.' || c = '-' || c = ' ')),
  lit1 ',', starR reSp,
  plusR (.cls (fun c => isAlphaC c || c = '.' || c = '-' || c = ' ')),
  plusR (.cls (fun c => c = ',' || c = ' ')),
  .rep (.cls isWordC) 2 (some 2), plusR reSp, .rep reD 4 (some 6)]

/-! ## Text-Finding Extractor (detect_utils.py, regex_entities) -/

/-- `regex_entities(text)`: one finding per non-overlapping match of each
pattern (patterns in table order), followed by the line-oriented ADDRESS
heuristic (hint word contained in the lowercased line, or street-shaped
pattern, and a trimmed length above 6; matched text is the trimmed line
truncated to 200 characters). -/
def regex_entities (text : Str) : List TFinding :=
  (PATTERNS.flatMap (fun lp =>
    (pyFinditer lp.2 text).map (fun ab => ⟨lp.1, ab, pySlice text ab.1 ab.2⟩)))
  ++ (pySplitlines text).flatMap (fun line =>
    let low := pyLower line
    if ADDRESS_HINT_WORDS.any (fun k => isSub k low) || pySearch reStreet line then
      (if 6 < (pyStrip line).length then
        [⟨"ADDRESS", (0, 0), (pyStrip line).take 200⟩]
      else [])
    else [])

/-! ## IEEE-754 model of `int(0.03 * w)` (redact_utils.py, apply_redactions_cv)

`0.03` denotes the binary64 value `8646911284551352 * 2 ^ (-58)`; the product
with the (rounded) operand is rounded to nearest, ties to even, and `int`
truncates toward zero. -/

/-- Number of binary digits of `m` (0 for 0), fuel-based so that it reduces
in the kernel. -/
def bitlen : Nat → Nat → Nat
  | 0, _ => 0
  | f + 1, m => if m = 0 then 0 else bitlen f (m / 2) + 1

/-- Round a natural number to 53 significant bits, ties to even
(the binary64 significand rounding applied to an integer-valued operand).
For `n ≥ 2 ^ 53` the dropped width is `s = bitlen n - 53`. -/
def rnd53 (n : Nat) : Nat :=
  if n < 2 ^ 53 then n
  else
    let s := bitlen n (n / 2 ^ 53)
    let q := n / 2 ^ s
    let r := n % 2 ^ s
    if 2 ^ (s - 1) < r || (r = 2 ^ (s - 1) && q % 2 = 1) then (q + 1) * 2 ^ s
    else q * 2 ^ s

/-- `int(0.03 * w)` for nonnegative `w` under exact binary64 semantics. -/
def pad03core (n : Nat) : Nat := rnd53 (8646911284551352 * rnd53 n) / 2 ^ 58

/-- Model of the Python expression `int(0.03 * w)` (binary64 arithmetic,
truncation toward zero; both operations are sign-symmetric). -/
def pyPad (w : Int) : Int :=
  if w < 0 then -(pad03core w.natAbs : Int) else (pad03core w.natAbs : Int)

example : pyPad 300 = 9 := by decide
example : pyPad 50 = 1 := by decide
example : pyPad 20 = 0 := by decide
example : pyPad 1 = 0 := by decide
example : pyPad (-50) = -1 := by decide
example : pyPad 100 = 3 := by decide

theorem pyPad_nonneg {w : Int} (h : 0 ≤ w) : 0 ≤ pyPad w := by
  unfold pyPad
  rw [if_neg (by omega)]
  exact Int.natCast_nonneg _

/-! ## Pixel data model (redact_utils.py / ocr_utils.py) -/

/-- A pixel: a triple of channel values (BGR for OpenCV buffers, RGB for PIL
images). -/
abbrev Pix := Nat × Nat × Nat

/-- Pixel data with its two dimensions: rows `0 ≤ y < H`, columns
`0 ≤ x < W`; `pix` is row-major (`pix y x`), matching `ndarray[y, x]`. -/
@[ext]
structure RawImg where
  H : Nat
  W : Nat
  pix : Nat → Nat → Pix

/-- Swap the first and third channel of a pixel (BGR ↔ RGB). -/
def swapC (p : Pix) : Pix := (p.2.2, p.2.1, p.1)

/-- `cv_to_pil` (ocr_utils.py): BGR→RGB conversion, dimensions unchanged. -/
def cv_to_pil (i : RawImg) : RawImg := ⟨i.H, i.W, fun y x => swapC (i.pix y x)⟩

/-- `pil_to_cv` (ocr_utils.py): RGB→BGR conversion, dimensions unchanged. -/
def pil_to_cv (i : RawImg) : RawImg := ⟨i.H, i.W, fun y x => swapC (i.pix y x)⟩

theorem swapC_swapC (p : Pix) : swapC (swapC p) = p := rfl

theorem pil_to_cv_cv_to_pil (i : RawImg) : pil_to_cv (cv_to_pil i) = i := by
  ext y x <;> rfl

/-! ## Redaction Applier (redact_utils.py, apply_redactions_cv) -/

/-- The abstract Gaussian-blur collaborator (`cv2.GaussianBlur`): given the
kernel size and the region height/width, turn region pixel data into region
pixel data of the same shape. Kept abstract because the claims only concern
where its output is written, never its values. -/
def GBlur : Type := Int → Nat → Nat → (Nat → Nat → Pix) → Nat → Nat → Pix

/-- The dynamic blur-kernel size of apply_redactions_cv (line
`k = max(15, (max(1, (x1 - x0) // 10) // 2) * 2 + 1)`); Python `//` is floor
division. -/
def kernel (d : Int) : Int := max 15 ((max 1 (Int.fdiv d 10)).fdiv 2 * 2 + 1)

/-- Effective stop of the Python slice `a[... : i]` on an axis of length
`len` (a negative stop counts from the end of the axis). -/
def sliceStop (len : Nat) (i : Int) : Int :=
  if i < 0 then max 0 ((len : Int) + i) else min (len : Int) i

/-- `x0 = max(0, x - int(0.03 * w))` of apply_redactions_cv. -/
def x0E (b : Box) : Int := max 0 (b.x - pyPad b.w)

/-- `y0 = max(0, y - int(0.03 * h))` of apply_redactions_cv. -/
def y0E (b : Box) : Int := max 0 (b.y - pyPad b.h)

/-- `x1 = min(W, x + w + int(0.03 * w))` of apply_redactions_cv. -/
def x1E (W : Nat) (b : Box) : Int := min (W : Int) (b.x + b.w + pyPad b.w)

/-- `y1 = min(H, y + h + int(0.03 * h))` of apply_redactions_cv. -/
def y1E (H : Nat) (b : Box) : Int := min (H : Int) (b.y + b.h + pyPad b.h)

/-- Membership of the pixel `(py, px)` in the (corner-inclusive, normalized,
image-clipped) rectangle spanned by the expanded clamped coordinates of
`b` — the exact region filled by `cv2.rectangle(..., thickness=-1)` on the
corner points `(x0, y0)` and `(x1, y1)`. -/
def inExpRect (H W : Nat) (b : Box) (py px : Nat) : Prop :=
  min (x0E b) (x1E W b) ≤ (px : Int) ∧ (px : Int) ≤ max (x0E b) (x1E W b) ∧
  (px : Int) < (W : Int) ∧
  min (y0E b) (y1E H b) ≤ (py : Int) ∧ (py : Int) ≤ max (y0E b) (y1E H b) ∧
  (py : Int) < (H : Int)

instance (H W : Nat) (b : Box) (py px : Nat) : Decidable (inExpRect H W b py px) := by
  unfold inExpRect; infer_instance

/-- One iteration of the `for det in detections` loop of
apply_redactions_cv, acting on the working pixel buffer `pix` of shape
`H × W`: skip zero-width/zero-height boxes; in `black` mode fill the
rectangle via `cv2.rectangle` (corner-inclusive, clipped); otherwise take
the numpy region `out[y0:y1, x0:x1]` (negative stops count from the end),
skip it when empty, else overwrite it with the blurred region. -/
def redactStep (mode : String) (g : GBlur) (H W : Nat)
    (pix : Nat → Nat → Pix) (det : Finding) : Nat → Nat → Pix :=
  let b := det.box
  if b.w = 0 ∨ b.h = 0 then pix
  else
    let x0 := x0E b
    let y0 := y0E b
    let x1 := x1E W b
    let y1 := y1E H b
    if mode = "black" then
      fun py px => if inExpRect H W b py px then (0, 0, 0) else pix py px
    else
      let cs := sliceStop W x1
      let rs := sliceStop H y1
      if cs ≤ x0 ∨ rs ≤ y0 then pix
      else
        let bl := g (kernel (x1 - x0)) (rs - y0).toNat (cs - x0).toNat
          (fun rr cc => pix (y0.toNat + rr) (x0.toNat + cc))
        fun py px =>
          if y0 ≤ (py : Int) ∧ (py : Int) < rs ∧ x0 ≤ (px : Int) ∧ (px : Int) < cs then
            bl (py - y0.toNat) (px - x0.toNat)
          else pix py px

/-- `apply_redactions_cv(cv_img, detections, mode)`: copy the input BGR
buffer, redact each detection's box in order, and return the result as a
PIL (RGB) image via `cv_to_pil`. -/
def apply_redactions_cv (cv_img : RawImg) (detections : List Finding)
    (mode : String) (g : GBlur) : RawImg :=
  cv_to_pil ⟨cv_img.H, cv_img.W,
    detections.foldl (redactStep mode g cv_img.H cv_img.W) cv_img.pix⟩

/-! ## Pipeline model (app.py, process_one_pil with auto-redact)

The OCR reader, the spaCy NER model and the three classical-CV detectors
are external collaborators (easyocr/pytesseract, spaCy, cv2 cascade /
contour analysis, pyzbar); their outputs enter the model as the `lines`
and `visual` arguments. `full_text` is computed from the OCR lines exactly
as in the code (`"\n".join(l["text"] for l in lines)`); the auto-redact
branch selects every merged finding. -/

/-- `"\n".join([l["text"] for l in lines])`. -/
def joinLines : List Line → Str
  | [] => []
  | [l] => l.text
  | l :: ls => l.text ++ '\n' :: joinLines ls

/-- The merged detection list of one page: aligned regex findings followed
by the outputs of the NER/face/signature/QR collaborators (`merged =
text_boxes + ner_boxes + face_boxes + sig_boxes + qr_boxes`). Under
`auto_redact` this is also the selection passed to the Redaction
Applier. -/
def selected_boxes_model (lines : List Line) (visual : List Finding) : List Finding :=
  align_text_findings_to_boxes (regex_entities (joinLines lines)) lines ++ visual

/-- A value of the per-page redaction-log dict. -/
inductive LogVal where
  | str (s : String) : LogVal
  | finds (l : List Finding) : LogVal
deriving DecidableEq

/-- `process_one_pil` (app.py), non-preview auto-redact path: OCR the page
(modelled by `lines`), extract and align text findings, merge with the
visual collaborators' findings, select everything, apply redaction to the
BGR conversion of the page, and build the per-page log dict (in the
insertion order of the Python dict literal; `ts` models `timestamp()`). -/
def process_one_pil_model (pil : RawImg) (lines : List Line) (visual : List Finding)
    (mode name page_tag ts : String) (g : GBlur) :
    RawImg × List (String × LogVal) :=
  let cv_img := pil_to_cv pil
  let merged := selected_boxes_model lines visual
  let selected := merged
  let redacted_pil := apply_redactions_cv cv_img selected mode g
  (redacted_pil,
   [("file", .str name), ("detections", .finds merged), ("redacted", .finds selected),
    ("mode", .str mode), ("timestamp", .str ts), ("page", .str page_tag)])

/-- A finding is located on a `pW × pH` page: its box is a non-degenerate
rectangle (width > 0 and height > 0) lying within the page bounds. -/
def Located (pW pH : Int) (f : Finding) : Prop :=
  0 < f.box.w ∧ 0 < f.box.h ∧ 0 ≤ f.box.x ∧ 0 ≤ f.box.y ∧
  f.box.x + f.box.w ≤ pW ∧ f.box.y + f.box.h ≤ pH

instance (pW pH : Int) (f : Finding) : Decidable (Located pW pH f) := by
  unfold Located; infer_instance

/-! ## Helper lemmas about the Redaction Applier -/

/-- A box with all four fields nonnegative. Every box produced by the
detection pipeline (OCR line boxes, face/signature/QR rectangles, the
sentinel) satisfies this. -/
def BoxNonneg (b : Box) : Prop := 0 ≤ b.x ∧ 0 ≤ b.y ∧ 0 ≤ b.w ∧ 0 ≤ b.h

instance (b : Box) : Decidable (BoxNonneg b) := by
  unfold BoxNonneg; infer_instance

theorem x1E_nonneg {W : Nat} {b : Box} (h : BoxNonneg b) : 0 ≤ x1E W b := by
  obtain ⟨hx, hy, hw, hh⟩ := h
  have hp := pyPad_nonneg hw
  have hW : (0 : Int) ≤ (W : Int) := Int.natCast_nonneg _
  unfold x1E
  omega

theorem y1E_nonneg {H : Nat} {b : Box} (h : BoxNonneg b) : 0 ≤ y1E H b := by
  obtain ⟨hx, hy, hw, hh⟩ := h
  have hp := pyPad_nonneg hh
  have hH : (0 : Int) ≤ (H : Int) := Int.natCast_nonneg _
  unfold y1E
  omega

theorem sliceStop_of_nonneg {len : Nat} {i : Int} (h : 0 ≤ i) :
    sliceStop len i = min (len : Int) i := by
  unfold sliceStop
  rw [if_neg (by omega)]

theorem redactStep_degenerate (mode : String) (g : GBlur) (H W : Nat)
    (pix : Nat → Nat → Pix) (det : Finding)
    (h : det.box.w = 0 ∨ det.box.h = 0) :
    redactStep mode g H W pix det = pix := by
  unfold redactStep
  rw [if_pos h]

theorem redactStep_frame (mode : String) (g : GBlur) (H W : Nat)
    (pix : Nat → Nat → Pix) (det : Finding) (py px : Nat)
    (hb : BoxNonneg det.box) (ho : ¬ inExpRect H W det.box py px) :
    redactStep mode g H W pix det py px = pix py px := by
  unfold redactStep
  by_cases hd : det.box.w = 0 ∨ det.box.h = 0
  · rw [if_pos hd]
  · rw [if_neg hd]
    by_cases hm : mode = "black"
    · simp only [if_pos hm]
      rw [if_neg ho]
    · simp only [if_neg hm]
      by_cases hs : sliceStop W (x1E W det.box) ≤ x0E det.box ∨
          sliceStop H (y1E H det.box) ≤ y0E det.box
      · rw [if_pos hs]
      · rw [if_neg hs]
        have hx1 : 0 ≤ x1E W det.box := x1E_nonneg hb
        have hy1 : 0 ≤ y1E H det.box := y1E_nonneg hb
        rw [sliceStop_of_nonneg hx1, sliceStop_of_nonneg hy1] at hs ⊢
        rw [if_neg]
        intro ⟨h1, h2, h3, h4⟩
        apply ho
        refine ⟨?_, ?_, ?_, ?_, ?_, ?_⟩ <;> omega

/-- Pixels outside every detection's rectangle survive the whole redaction
loop unchanged (boxes assumed nonnegative). -/
theorem foldl_frame (mode : String) (g : GBlur) (H W : Nat) (py px : Nat) :
    ∀ (dets : List Finding) (pix : Nat → Nat → Pix),
      (∀ d ∈ dets, BoxNonneg d.box) →
      (∀ d ∈ dets, ¬ inExpRect H W d.box py px) →
      dets.foldl (redactStep mode g H W) pix py px = pix py px := by
  intro dets
  induction dets with
  | nil => intro pix _ _; rfl
  | cons d ds ih =>
    intro pix hb ho
    have step := redactStep_frame mode g H W pix d py px
      (hb d (by simp)) (ho d (by simp))
    calc ((d :: ds).foldl (redactStep mode g H W) pix) py px
        = (ds.foldl (redactStep mode g H W) (redactStep mode g H W pix d)) py px := rfl
      _ = redactStep mode g H W pix d py px :=
          ih _ (fun x hx => hb x (by simp [hx])) (fun x hx => ho x (by simp [hx]))
      _ = pix py px := step

/-- The pixel `(py, px)` is painted black by the black-mode redaction of
finding `f`: the box is not skipped as degenerate and the pixel lies in the
filled rectangle. -/
def BlackCovers (H W : Nat) (f : Finding) (py px : Nat) : Prop :=
  ¬ (f.box.w = 0 ∨ f.box.h = 0) ∧ inExpRect H W f.box py px

instance (H W : Nat) (f : Finding) (py px : Nat) :
    Decidable (BlackCovers H W f py px) := by
  unfold BlackCovers; infer_instance

theorem redactStep_black (g : GBlur) (H W : Nat) (pix : Nat → Nat → Pix)
    (det : Finding) (py px : Nat) :
    redactStep "black" g H W pix det py px =
      if BlackCovers H W det py px then (0, 0, 0) else pix py px := by
  unfold redactStep BlackCovers
  by_cases hd : det.box.w = 0 ∨ det.box.h = 0
  · rw [if_pos hd, if_neg (by tauto)]
  · rw [if_neg hd]
    simp only [if_pos rfl, if_true]
    by_cases hr : inExpRect H W det.box py px
    · rw [if_pos hr, if_pos ⟨hd, hr⟩]
    · rw [if_neg hr, if_neg (by tauto)]

/-- Pointwise characterization of the whole black-mode redaction loop: a
pixel is black where some detection covers it and is otherwise the input
pixel. -/
theorem foldl_black (g : GBlur) (H W : Nat) (py px : Nat) :
    ∀ (dets : List Finding) (pix : Nat → Nat → Pix),
      dets.foldl (redactStep "black" g H W) pix py px =
        if ∃ d ∈ dets, BlackCovers H W d py px then (0, 0, 0) else pix py px := by
  intro dets
  induction dets with
  | nil => intro pix; simp
  | cons d ds ih =>
    intro pix
    have hstep := redactStep_black g H W pix d py px
    calc ((d :: ds).foldl (redactStep "black" g H W) pix) py px
        = (ds.foldl (redactStep "black" g H W) (redactStep "black" g H W pix d)) py px := rfl
      _ = if ∃ e ∈ ds, BlackCovers H W e py px then (0, 0, 0)
          else redactStep "black" g H W pix d py px := ih _
      _ = if ∃ e ∈ d :: ds, BlackCovers H W e py px then (0, 0, 0) else pix py px := by
          rw [hstep]
          by_cases h1 : ∃ e ∈ ds, BlackCovers H W e py px
          · rw [if_pos h1, if_pos (by obtain ⟨e, he, hc⟩ := h1; exact ⟨e, by simp [he], hc⟩)]
          · rw [if_neg h1]
            by_cases h2 : BlackCovers H W d py px
            · rw [if_pos h2, if_pos ⟨d, by simp, h2⟩]
            · rw [if_neg h2, if_neg]
              intro ⟨e, he, hc⟩
              rcases List.mem_cons.mp he with rfl | hmem
              · exact h2 hc
              · exact h1 ⟨e, hmem, hc⟩

/-- Degenerate (zero-width or zero-height) detections are no-ops: the
redaction loop gives the same pixel buffer as the loop over the list with
them removed. -/
theorem foldl_filter_degenerate (mode : String) (g : GBlur) (H W : Nat) :
    ∀ (dets : List Finding) (pix : Nat → Nat → Pix),
      dets.foldl (redactStep mode g H W) pix =
        (dets.filter (fun d => !(d.box.w == 0 || d.box.h == 0))).foldl
          (redactStep mode g H W) pix := by
  intro dets
  induction dets with
  | nil => intro pix; rfl
  | cons d ds ih =>
    intro pix
    by_cases hd : d.box.w = 0 ∨ d.box.h = 0
    · have hskip : redactStep mode g H W pix d = pix := redactStep_degenerate _ _ _ _ _ _ hd
      have hfilt : (fun d => !(d.box.w == 0 || d.box.h == 0)) d = false := by
        simp only [Bool.not_eq_true']
        rcases hd with h | h <;> simp [h]
      calc ((d :: ds).foldl (redactStep mode g H W) pix)
          = ds.foldl (redactStep mode g H W) (redactStep mode g H W pix d) := rfl
        _ = ds.foldl (redactStep mode g H W) pix := by rw [hskip]
        _ = _ := by rw [ih, List.filter_cons_of_neg (by simpa using hfilt)]
    · have hfilt : (fun d => !(d.box.w == 0 || d.box.h == 0)) d = true := by
        simp only [Bool.not_eq_true', Bool.not_eq_false]
        push_neg at hd
        simp [hd.1, hd.2]
      calc ((d :: ds).foldl (redactStep mode g H W) pix)
          = ds.foldl (redactStep mode g H W) (redactStep mode g H W pix d) := rfl
        _ = _ := by
            rw [List.filter_cons_of_pos (by simpa using hfilt)]
            exact ih _


/-! ## Helper lemmas about the Spatial Aligner -/

theorem find?_of_first {α : Type} (p : α → Bool) :
    ∀ (l : List α) (k : Nat) (hk : k < l.length),
      p l[k] = true →
      (∀ j (hj : j < l.length), j < k → p l[j] = false) →
      l.find? p = some l[k] := by
  intro l
  induction l with
  | nil => intro k hk; exact absurd hk (by simp)
  | cons a as ih =>
    intro k hk hp hmin
    cases k with
    | zero => exact List.find?_cons_of_pos _ hp
    | succ k' =>
      have ha : p a = false := hmin 0 (by simp) (Nat.succ_pos _)
      rw [List.find?_cons_of_neg _ (by simp [ha])]
      simp only [List.getElem_cons_succ] at hp ⊢
      exact ih k' (Nat.lt_of_succ_lt_succ hk) hp
        (fun j hj hjk => by
          have := hmin (j + 1) (by simpa using Nat.succ_lt_succ hj) (Nat.succ_lt_succ hjk)
          simpa using this)

theorem alignOne_label_matched (lines : List Line) (tf : TFinding) :
    (alignOne lines tf).label = tf.label ∧ (alignOne lines tf).matched = tf.matched := by
  simp only [alignOne]
  rcases hfe : lines.find? (fun l => !tf.matched.isEmpty && isSub tf.matched l.text) with _ | l
  · rcases hfn : lines.find? (fun l =>
        !(stripNonWord (pyLower tf.matched)).isEmpty &&
        isSub (stripNonWord (pyLower tf.matched)) (stripNonWord (pyLower l.text)) &&
        decide (4 ≤ (stripNonWord (pyLower tf.matched)).length)) with _ | l
    · simp [hfe, hfn]
    · simp [hfe, hfn]
  · simp [hfe]

theorem alignOne_exact (lines : List Line) (tf : TFinding) (k : Nat)
    (hk : k < lines.length)
    (hne : tf.matched ≠ [])
    (hhit : isSub tf.matched lines[k].text = true)
    (hfirst : ∀ j (hj : j < lines.length), j < k → isSub tf.matched lines[j].text = false) :
    alignOne lines tf = ⟨tf.label, lines[k].box, tf.matched⟩ := by
  have hemp : tf.matched.isEmpty = false := by
    cases h : tf.matched with
    | nil => exact absurd h hne
    | cons a as => rfl
  have hfind : lines.find? (fun l => !tf.matched.isEmpty && isSub tf.matched l.text)
      = some lines[k] := by
    apply find?_of_first _ _ _ hk
    · simp [hemp, hhit]
    · intro j hj hjk; simp [hemp, hfirst j hj hjk]
  simp only [alignOne, hfind]

theorem alignOne_norm (lines : List Line) (tf : TFinding) (k : Nat)
    (hk : k < lines.length)
    (hnoex : ∀ l ∈ lines, tf.matched = [] ∨ isSub tf.matched l.text = false)
    (hlen : 4 ≤ (stripNonWord (pyLower tf.matched)).length)
    (hhit : isSub (stripNonWord (pyLower tf.matched))
      (stripNonWord (pyLower lines[k].text)) = true)
    (hfirst : ∀ j (hj : j < lines.length), j < k →
      isSub (stripNonWord (pyLower tf.matched))
        (stripNonWord (pyLower lines[j].text)) = false) :
    alignOne lines tf = ⟨tf.label, lines[k].box, tf.matched⟩ := by
  have hclemp : (stripNonWord (pyLower tf.matched)).isEmpty = false := by
    cases h : stripNonWord (pyLower tf.matched) with
    | nil => rw [h] at hlen; simp at hlen
    | cons a as => rfl
  have hfe : lines.find? (fun l => !tf.matched.isEmpty && isSub tf.matched l.text) = none := by
    rw [List.find?_eq_none]
    intro l hl
    rcases hnoex l hl with h | h
    · simp [h]
    · simp [h]
  have hfn : lines.find? (fun l =>
      !(stripNonWord (pyLower tf.matched)).isEmpty &&
      isSub (stripNonWord (pyLower tf.matched)) (stripNonWord (pyLower l.text)) &&
      decide (4 ≤ (stripNonWord (pyLower tf.matched)).length))
      = some lines[k] := by
    apply find?_of_first _ _ _ hk
    · simp [hclemp, hhit, hlen]
    · intro j hj hjk; simp [hclemp, hfirst j hj hjk]
  simp only [alignOne, hfe, hfn]

theorem alignOne_sentinel (lines : List Line) (tf : TFinding)
    (h1 : ∀ l ∈ lines, isSub tf.matched l.text = false)
    (h2 : ∀ l ∈ lines, isSub (stripNonWord (pyLower tf.matched))
      (stripNonWord (pyLower l.text)) = false) :
    alignOne lines tf = ⟨tf.label, sentinelBox, tf.matched⟩ := by
  have hfe : lines.find? (fun l => !tf.matched.isEmpty && isSub tf.matched l.text) = none := by
    rw [List.find?_eq_none]
    intro l hl
    simp [h1 l hl]
  have hfn : lines.find? (fun l =>
      !(stripNonWord (pyLower tf.matched)).isEmpty &&
      isSub (stripNonWord (pyLower tf.matched)) (stripNonWord (pyLower l.text)) &&
      decide (4 ≤ (stripNonWord (pyLower tf.matched)).length)) = none := by
    rw [List.find?_eq_none]
    intro l hl
    simp [h2 l hl]
  simp only [alignOne, hfe, hfn]

/-! ## Helper lemmas about the blur kernel -/

theorem kernel_odd_ge (d : Int) : kernel d % 2 = 1 ∧ 15 ≤ kernel d := by
  unfold kernel
  have h := Int.le_max_left (15 : Int) ((max 1 (Int.fdiv d 10)).fdiv 2 * 2 + 1)
  constructor
  · omega
  · exact h

theorem kernel_mono {a b : Int} (h : a ≤ b) : kernel a ≤ kernel b := by
  unfold kernel
  have h1 : Int.fdiv a 10 ≤ Int.fdiv b 10 := by
    rw [Int.fdiv_eq_ediv _ (by norm_num : (0 : Int) ≤ 10),
      Int.fdiv_eq_ediv _ (by norm_num : (0 : Int) ≤ 10)]
    exact Int.ediv_le_ediv (c := 10) (by norm_num) h
  have h2 : max 1 (Int.fdiv a 10) ≤ max 1 (Int.fdiv b 10) := by omega
  have h3 : (max 1 (Int.fdiv a 10)).fdiv 2 ≤ (max 1 (Int.fdiv b 10)).fdiv 2 := by
    rw [Int.fdiv_eq_ediv _ (by norm_num : (0 : Int) ≤ 2),
      Int.fdiv_eq_ediv _ (by norm_num : (0 : Int) ≤ 2)]
    exact Int.ediv_le_ediv (c := 2) (by norm_num) h2
  omega

/-! ## Concrete fixtures used by counterexamples and witnesses -/

/-- A 4×4 test image with pairwise distinct, nonzero pixels. -/
def testImg : RawImg := ⟨4, 4, fun y x => (y * 4 + x + 1, 7, 9)⟩

/-- A located 2×2 finding inside `testImg`. -/
def testDet : Finding := ⟨"FACE", ⟨1, 1, 2, 2⟩, []⟩

/-- A concrete instantiation of the abstract `cv2.GaussianBlur`
collaborator that returns a constant plane. -/
def constBlur : GBlur := fun _ _ _ _ _ _ => (255, 255, 255)

/-- Two OCR lines whose joined page text makes the DOB pattern match across
the line break, so that the match is alignable to no single line. -/
def c1Lines : List Line :=
  [⟨"DOB:".toList, ⟨10, 10, 50, 20⟩⟩, ⟨"01/02/1990".toList, ⟨10, 40, 80, 20⟩⟩]

/-- The round-trip scenario text of the specification. -/
def c2Text : Str := "Contact jane@example.com or call 555-123-4567".toList

/-- The round-trip scenario OCR line. -/
def c2Line : Line := ⟨c2Text, ⟨10, 10, 300, 20⟩⟩

/-- A finding whose box lies entirely beyond the left image edge, with
`x + w + int(0.03*w) = -2` strictly between `-W` and `0`. -/
def c6Det : Finding := ⟨"FACE", ⟨-3, 0, 1, 1⟩, []⟩

/-! ## Claims -/

/-- Claim C1, counterexample. The claim states that no unlocated
(sentinel-box) finding ever reaches the Redaction Applier for any page of
the Detect → selection → Redact pipeline. On the page whose OCR lines are
`c1Lines`, the page text is `"DOB:\n01/02/1990"`, the DOB pattern matches
across the line break, the Spatial Aligner cannot place the match on any
single line and emits the sentinel box, and the auto-redact selection —
the exact list handed to `apply_redactions_cv` by `process_one_pil` —
consists of that unlocated finding, which is located on no page. -/
theorem claim_C1_counterexample :
    selected_boxes_model c1Lines [] =
      [⟨"DOB", sentinelBox, "DOB:\n01/02/1990".toList⟩] ∧
    (process_one_pil_model testImg c1Lines [] "blur" "f.png" "" "t" constBlur).2.contains
      ("redacted", LogVal.finds [⟨"DOB", sentinelBox, "DOB:\n01/02/1990".toList⟩]) = true ∧
    ¬ Located 1000 1000 ⟨"DOB", sentinelBox, "DOB:\n01/02/1990".toList⟩ := by
  refine ⟨by decide, by decide, ?_⟩
  intro h
  exact absurd h.1 (by decide)

/-- Claim C1, amended: unlocated (sentinel-box) findings can reach the
Redaction Applier through the selection list, but the applier skips every
finding whose box has zero width or zero height, so they never cause a
pixel write: redaction output is identical to that of the selection with
all such findings removed. -/
theorem claim_C1_amended (cv_img : RawImg) (dets : List Finding)
    (mode : String) (g : GBlur) :
    apply_redactions_cv cv_img dets mode g =
      apply_redactions_cv cv_img
        (dets.filter (fun d => !(d.box.w == 0 || d.box.h == 0))) mode g := by
  unfold apply_redactions_cv
  rw [foldl_filter_degenerate]

/-- Claim C2, counterexample. The claim states that the Text-Finding
Extractor yields exactly two findings (EMAIL and PHONE) on the round-trip
text; it actually yields four — the CVV pattern `(?<!\d)\d{3}(?!\d)` also
matches the digit groups `555` and `123` of the phone number. -/
theorem claim_C2_counterexample :
    (regex_entities c2Text).length = 4 ∧ (regex_entities c2Text).length ≠ 2 := by
  refine ⟨by decide, ?_⟩
  intro h
  rw [show (regex_entities c2Text).length = 4 from by decide] at h
  exact absurd h (by decide)

/-- Claim C2, amended: on the round-trip text the Text-Finding Extractor
yields exactly four findings — EMAIL `jane@example.com`, PHONE
`555-123-4567`, and two CVV false positives `555` and `123` — and, given
the single OCR line of the scenario, the Spatial Aligner locates all four
(in particular the EMAIL and PHONE findings) at box (10,10,300,20). -/
theorem claim_C2_amended :
    regex_entities c2Text =
      [⟨"EMAIL", (8, 24), "jane@example.com".toList⟩,
       ⟨"PHONE", (33, 45), "555-123-4567".toList⟩,
       ⟨"CVV", (33, 36), "555".toList⟩,
       ⟨"CVV", (37, 40), "123".toList⟩] ∧
    align_text_findings_to_boxes (regex_entities c2Text) [c2Line] =
      [⟨"EMAIL", ⟨10, 10, 300, 20⟩, "jane@example.com".toList⟩,
       ⟨"PHONE", ⟨10, 10, 300, 20⟩, "555-123-4567".toList⟩,
       ⟨"CVV", ⟨10, 10, 300, 20⟩, "555".toList⟩,
       ⟨"CVV", ⟨10, 10, 300, 20⟩, "123".toList⟩] := by
  constructor
  · decide
  · decide

/-- Claim C3: the Spatial Aligner returns exactly one output finding per
input finding, in input order, preserving label and matched text; for a
finding with non-empty matched text occurring verbatim in some OCR line,
the output box is the box of the first such line (exact containment takes
precedence over the normalized path); otherwise, when the normalized
(non-word-stripped, lowercased) match has at least 4 characters and is
contained in some line's equally normalized text, the box of the first
such line is used. -/
theorem claim_C3_aligner (tfs : List TFinding) (lines : List Line) :
    (align_text_findings_to_boxes tfs lines).length = tfs.length ∧
    (∀ i (hi : i < tfs.length) (hi' : i < (align_text_findings_to_boxes tfs lines).length),
      ((align_text_findings_to_boxes tfs lines).get ⟨i, hi'⟩).label = (tfs.get ⟨i, hi⟩).label ∧
      ((align_text_findings_to_boxes tfs lines).get ⟨i, hi'⟩).matched
        = (tfs.get ⟨i, hi⟩).matched ∧
      (∀ k (hk : k < lines.length),
        (tfs.get ⟨i, hi⟩).matched ≠ [] →
        isSub (tfs.get ⟨i, hi⟩).matched lines[k].text = true →
        (∀ j (hj : j < lines.length), j < k →
          isSub (tfs.get ⟨i, hi⟩).matched lines[j].text = false) →
        ((align_text_findings_to_boxes tfs lines).get ⟨i, hi'⟩).box = lines[k].box) ∧
      (∀ k (hk : k < lines.length),
        (∀ l ∈ lines, (tfs.get ⟨i, hi⟩).matched = [] ∨
          isSub (tfs.get ⟨i, hi⟩).matched l.text = false) →
        4 ≤ (stripNonWord (pyLower (tfs.get ⟨i, hi⟩).matched)).length →
        isSub (stripNonWord (pyLower (tfs.get ⟨i, hi⟩).matched))
          (stripNonWord (pyLower lines[k].text)) = true →
        (∀ j (hj : j < lines.length), j < k →
          isSub (stripNonWord (pyLower (tfs.get ⟨i, hi⟩).matched))
            (stripNonWord (pyLower lines[j].text)) = false) →
        ((align_text_findings_to_boxes tfs lines).get ⟨i, hi'⟩).box = lines[k].box)) := by
  constructor
  · exact List.length_map _ _
  · intro i hi hi'
    have hget : (align_text_findings_to_boxes tfs lines).get ⟨i, hi'⟩
        = alignOne lines (tfs.get ⟨i, hi⟩) := by
      simp [align_text_findings_to_boxes, List.get_eq_getElem, List.getElem_map]
    refine ⟨?_, ?_, ?_, ?_⟩
    · rw [hget]; exact (alignOne_label_matched lines _).1
    · rw [hget]; exact (alignOne_label_matched lines _).2
    · intro k hk hne hhit hfirst
      rw [hget, alignOne_exact lines _ k hk hne hhit hfirst]
    · intro k hk hnoex hlen hhit hfirst
      rw [hget, alignOne_norm lines _ k hk hnoex hlen hhit hfirst]

/-- Claim C3, witness: on one finding `a@b.co` and one OCR line containing
it verbatim, the theorem instantiates to place the finding at that line's
box. -/
theorem claim_C3_witness :
    ((align_text_findings_to_boxes [⟨"EMAIL", (0, 6), "a@b.co".toList⟩]
        [⟨"xa@b.cox".toList, ⟨1, 2, 3, 4⟩⟩]).get ⟨0, by decide⟩).box = ⟨1, 2, 3, 4⟩ :=
  ((claim_C3_aligner [⟨"EMAIL", (0, 6), "a@b.co".toList⟩]
      [⟨"xa@b.cox".toList, ⟨1, 2, 3, 4⟩⟩]).2 0 (by decide) (by decide)).2.2.1 0 (by decide)
    (by decide) (by decide) (fun j hj hjk => absurd hjk (Nat.not_lt_zero j))

/-- Claim C4: a finding whose matched text appears in no OCR line, neither
verbatim nor after normalization, is not dropped — the Aligner outputs it
with the sentinel box (0,0,0,0) — and `apply_redactions_cv` applied to a
detection list containing only zero-width-or-zero-height boxes returns
pixel data equal to the input image in every mode (blur and black), without
error. -/
theorem claim_C4_sentinel_noop :
    (∀ (tfs : List TFinding) (lines : List Line) (i : Nat) (hi : i < tfs.length),
      (∀ l ∈ lines, isSub (tfs.get ⟨i, hi⟩).matched l.text = false) →
      (∀ l ∈ lines, isSub (stripNonWord (pyLower (tfs.get ⟨i, hi⟩).matched))
        (stripNonWord (pyLower l.text)) = false) →
      (align_text_findings_to_boxes tfs lines).length = tfs.length ∧
      ∀ hi' : i < (align_text_findings_to_boxes tfs lines).length,
        (align_text_findings_to_boxes tfs lines).get ⟨i, hi'⟩ =
          ⟨(tfs.get ⟨i, hi⟩).label, sentinelBox, (tfs.get ⟨i, hi⟩).matched⟩) ∧
    (∀ (cv_img : RawImg) (dets : List Finding) (mode : String) (g : GBlur),
      (∀ d ∈ dets, d.box.w = 0 ∨ d.box.h = 0) →
      pil_to_cv (apply_redactions_cv cv_img dets mode g) = cv_img) := by
  constructor
  · intro tfs lines i hi h1 h2
    refine ⟨List.length_map _ _, ?_⟩
    intro hi'
    have hget : (align_text_findings_to_boxes tfs lines).get ⟨i, hi'⟩
        = alignOne lines (tfs.get ⟨i, hi⟩) := by
      simp [align_text_findings_to_boxes, List.get_eq_getElem, List.getElem_map]
    rw [hget, alignOne_sentinel lines _ h1 h2]
  · intro cv_img dets mode g hdeg
    unfold apply_redactions_cv
    rw [foldl_filter_degenerate]
    have hnil : dets.filter (fun d => !(d.box.w == 0 || d.box.h == 0)) = [] := by
      rw [List.filter_eq_nil_iff]
      intro d hd
      rcases hdeg d hd with h | h <;> simp [h]
    rw [hnil, pil_to_cv_cv_to_pil]
    rfl

/-- Claim C4, witness: a finding unmatched by the single OCR line gets the
sentinel box, and redacting only that sentinel-box finding leaves the test
image unchanged. -/
theorem claim_C4_witness :
    (align_text_findings_to_boxes [⟨"SSN", (0, 11), "999-12-3456".toList⟩]
        [⟨"other words".toList, ⟨1, 1, 5, 5⟩⟩]).get ⟨0, by decide⟩ =
      ⟨"SSN", sentinelBox, "999-12-3456".toList⟩ ∧
    pil_to_cv (apply_redactions_cv testImg
      [⟨"SSN", sentinelBox, "999-12-3456".toList⟩] "blur" constBlur) = testImg :=
  ⟨((claim_C4_sentinel_noop.1 [⟨"SSN", (0, 11), "999-12-3456".toList⟩]
      [⟨"other words".toList, ⟨1, 1, 5, 5⟩⟩] 0 (by decide) (by decide) (by decide)).2
      (by decide)),
   claim_C4_sentinel_noop.2 testImg _ "blur" constBlur (by decide)⟩

/-- Claim C5: `apply_redactions_cv` operates on a copy and returns new
pixel data — the input image is a value the function never overwrites —
and, in both blur and black modes, every pixel outside all of the selected
findings' expanded (3% of the box's own width and height per side,
`int(0.03*w)`) and bounds-clamped rectangles equals the corresponding
input pixel. The rectangle is the corner-inclusive region
`[min(x0,x1), max(x0,x1)] × [min(y0,y1), max(y0,y1)]` clipped to the
image, exactly the pixels `cv2.rectangle(..., -1)` can fill; the nonneg
hypothesis models the selected findings, whose boxes (OCR line boxes,
detector rectangles, or the sentinel) always have nonnegative fields. -/
theorem claim_C5_frame (cv_img : RawImg) (dets : List Finding) (mode : String)
    (g : GBlur) (py px : Nat)
    (hb : ∀ d ∈ dets, BoxNonneg d.box)
    (ho : ∀ d ∈ dets, ¬ inExpRect cv_img.H cv_img.W d.box py px) :
    (pil_to_cv (apply_redactions_cv cv_img dets mode g)).pix py px = cv_img.pix py px := by
  unfold apply_redactions_cv
  rw [pil_to_cv_cv_to_pil]
  exact foldl_frame mode g cv_img.H cv_img.W py px dets cv_img.pix hb ho

/-- Claim C5, witness: pixel (0,0) lies outside the expanded clamped
rectangle of the test finding and is unchanged by black-mode redaction. -/
theorem claim_C5_witness :
    (pil_to_cv (apply_redactions_cv testImg [testDet] "black" constBlur)).pix 0 0
      = testImg.pix 0 0 :=
  claim_C5_frame testImg [testDet] "black" constBlur 0 0 (by decide) (by decide)

/-- For a box with nonnegative fields whose expanded clamped rectangle is
empty (`x1 ≤ x0` or `y1 ≤ y0`), the redaction step writes nothing in either
mode: the blur slice is empty and the black fill is fully clipped away. -/
theorem redactStep_empty_skip (mode : String) (g : GBlur) (H W : Nat)
    (pix : Nat → Nat → Pix) (det : Finding) (hb : BoxNonneg det.box)
    (he : x1E W det.box ≤ x0E det.box ∨ y1E H det.box ≤ y0E det.box) :
    redactStep mode g H W pix det = pix := by
  by_cases hd : det.box.w = 0 ∨ det.box.h = 0
  · exact redactStep_degenerate _ _ _ _ _ _ hd
  · unfold redactStep
    rw [if_neg hd]
    by_cases hm : mode = "black"
    · rw [if_pos hm]
      funext py px
      have hni : ¬ inExpRect H W det.box py px := by
        intro hin
        obtain ⟨hx, hy, hw, hh⟩ := hb
        have pw := pyPad_nonneg hw
        have ph := pyPad_nonneg hh
        have hW : (0 : Int) ≤ (W : Int) := Int.natCast_nonneg _
        have hH : (0 : Int) ≤ (H : Int) := Int.natCast_nonneg _
        have hpx : (0 : Int) ≤ (px : Int) := Int.natCast_nonneg _
        have hpy : (0 : Int) ≤ (py : Int) := Int.natCast_nonneg _
        have hw0 : det.box.w ≠ 0 := fun h => hd (Or.inl h)
        have hh0 : det.box.h ≠ 0 := fun h => hd (Or.inr h)
        unfold inExpRect at hin
        unfold x0E y0E x1E y1E at he hin
        omega
      rw [if_neg hni]
    · have hskip : sliceStop W (x1E W det.box) ≤ x0E det.box ∨
          sliceStop H (y1E H det.box) ≤ y0E det.box := by
        rcases he with h | h
        · left
          rw [sliceStop_of_nonneg (x1E_nonneg hb)]
          exact le_trans (min_le_right _ _) h
        · right
          rw [sliceStop_of_nonneg (y1E_nonneg hb)]
          exact le_trans (min_le_right _ _) h
      rw [if_neg hm, if_pos hskip]

/-- Claim C6, counterexample. The claim states that a rectangle that is
empty after clamping is skipped. For the box `(-3, 0, 1, 1)` — fully beyond
the left edge of the 4×4 test image — the clamped coordinates are `x0 = 0`
and `x1 = -2`, an empty rectangle, yet blur mode does not skip it: the
numpy slice `out[0:1, 0:-2]` interprets the negative stop from the right
end of the axis and blurs the in-bounds band of columns 0–1, changing
pixel (0,1). -/
theorem claim_C6_counterexample :
    x1E 4 c6Det.box ≤ x0E c6Det.box ∧
    (pil_to_cv (apply_redactions_cv testImg [c6Det] "blur" constBlur)).pix 0 1
      ≠ testImg.pix 0 1 := by
  constructor
  · decide
  · decide

/-- Claim C6, amended: for every detection whose box has nonnegative
fields — every box the pipeline produces, including all boxes partially or
fully exceeding the image on the right or bottom edge and degenerate
(zero-area) ones — the expanded coordinates are clamped (`x0, y0 ≥ 0`,
`x1 ≤ W`, `y1 ≤ H`), a rectangle that is empty after clamping is skipped
in both modes, redaction completes without error, and every pixel write
stays inside the clamped rectangle and inside the image (no wrap to the
opposite edge). Boxes lying beyond the *left/top* edge (which require a
negative `x` or `y`) are excluded: for those, blur mode re-interprets the
negative clamped stop from the opposite end of the axis and does not skip
the empty rectangle (see the counterexample). -/
theorem claim_C6_amended (cv_img : RawImg) (det : Finding) (mode : String)
    (g : GBlur) (hb : BoxNonneg det.box) :
    (0 ≤ x0E det.box ∧ 0 ≤ y0E det.box ∧
      x1E cv_img.W det.box ≤ (cv_img.W : Int) ∧
      y1E cv_img.H det.box ≤ (cv_img.H : Int)) ∧
    ((x1E cv_img.W det.box ≤ x0E det.box ∨ y1E cv_img.H det.box ≤ y0E det.box) →
      pil_to_cv (apply_redactions_cv cv_img [det] mode g) = cv_img) ∧
    (∀ py px : Nat,
      (pil_to_cv (apply_redactions_cv cv_img [det] mode g)).pix py px ≠ cv_img.pix py px →
      inExpRect cv_img.H cv_img.W det.box py px) := by
  refine ⟨⟨le_max_left _ _, le_max_left _ _, min_le_left _ _, min_le_left _ _⟩, ?_, ?_⟩
  · intro he
    unfold apply_redactions_cv
    rw [pil_to_cv_cv_to_pil]
    have hstep : List.foldl (redactStep mode g cv_img.H cv_img.W) cv_img.pix [det]
        = cv_img.pix :=
      redactStep_empty_skip mode g cv_img.H cv_img.W cv_img.pix det hb he
    rw [hstep]
  · intro py px hne
    by_contra hni
    apply hne
    unfold apply_redactions_cv
    rw [pil_to_cv_cv_to_pil]
    exact foldl_frame mode g cv_img.H cv_img.W py px [det] cv_img.pix
      (fun d hd => by rw [List.mem_singleton.mp hd]; exact hb)
      (fun d hd => by rw [List.mem_singleton.mp hd]; exact hni)

/-- Claim C6, witness: a box beyond the right edge of the test image
(empty clamped rectangle, `x0 = 10 > 4 = x1`) is skipped: the image is
returned unchanged. -/
theorem claim_C6_witness :
    pil_to_cv (apply_redactions_cv testImg
      [⟨"QRCODE", ⟨10, 0, 2, 2⟩, []⟩] "blur" constBlur) = testImg :=
  (claim_C6_amended testImg ⟨"QRCODE", ⟨10, 0, 2, 2⟩, []⟩ "blur" constBlur
    (by decide)).2.1 (by decide)

/-- Claim C7: the blur kernel `max(15, (max(1, d//10)//2)*2+1)` computed
from the expanded clamped rectangle width `d = x1 - x0` is always odd and
at least 15, and is monotone in the width; the box `(10,10,300,20)` inside
a 1000-pixel-wide image expands to width 318 (3% pad = 9 per side), giving
kernel 31 ≥ 31, strictly larger than for the width-50 box `(10,10,50,20)`
(expanded width 52, 3% pad = 1 per side), which gets the floor value 15. -/
theorem claim_C7_kernel :
    (∀ d : Int, kernel d % 2 = 1 ∧ 15 ≤ kernel d) ∧
    (∀ a b : Int, a ≤ b → kernel a ≤ kernel b) ∧
    (x1E 1000 ⟨10, 10, 300, 20⟩ - x0E ⟨10, 10, 300, 20⟩ = 318 ∧
     kernel (x1E 1000 ⟨10, 10, 300, 20⟩ - x0E ⟨10, 10, 300, 20⟩) = 31 ∧
     x1E 1000 ⟨10, 10, 50, 20⟩ - x0E ⟨10, 10, 50, 20⟩ = 52 ∧
     kernel (x1E 1000 ⟨10, 10, 50, 20⟩ - x0E ⟨10, 10, 50, 20⟩) = 15 ∧
     kernel (x1E 1000 ⟨10, 10, 50, 20⟩ - x0E ⟨10, 10, 50, 20⟩) <
       kernel (x1E 1000 ⟨10, 10, 300, 20⟩ - x0E ⟨10, 10, 300, 20⟩)) :=
  ⟨kernel_odd_ge, fun _ _ h => kernel_mono h, by decide⟩

/-- Claim C7, witness: the monotonicity conjunct applied at widths 20 and
40. -/
theorem claim_C7_witness : kernel 20 ≤ kernel 40 :=
  claim_C7_kernel.2.1 20 40 (by decide)

/-- Claim C8: black-mode redaction is idempotent — converting the output
back to the BGR pixel representation and redacting again with the same
finalized located-finding list yields pixel data identical to a single
application (every covered pixel is already solid black). -/
theorem claim_C8_black_idempotent (cv_img : RawImg) (dets : List Finding) (g : GBlur)
    (_hloc : ∀ d ∈ dets, Located (cv_img.W : Int) (cv_img.H : Int) d) :
    apply_redactions_cv (pil_to_cv (apply_redactions_cv cv_img dets "black" g))
        dets "black" g
      = apply_redactions_cv cv_img dets "black" g := by
  have hfun : List.foldl (redactStep "black" g cv_img.H cv_img.W)
      (List.foldl (redactStep "black" g cv_img.H cv_img.W) cv_img.pix dets) dets =
      List.foldl (redactStep "black" g cv_img.H cv_img.W) cv_img.pix dets := by
    funext py px
    simp only [foldl_black]
    by_cases hc : ∃ d ∈ dets, BlackCovers cv_img.H cv_img.W d py px
    · simp only [if_pos hc]
    · simp only [if_neg hc]
  unfold apply_redactions_cv
  rw [pil_to_cv_cv_to_pil]
  exact congrArg cv_to_pil (congrArg (RawImg.mk cv_img.H cv_img.W) hfun)

/-- Claim C8, witness: idempotence at the test image and test finding. -/
theorem claim_C8_witness :
    apply_redactions_cv (pil_to_cv (apply_redactions_cv testImg [testDet] "black" constBlur))
        [testDet] "black" constBlur
      = apply_redactions_cv testImg [testDet] "black" constBlur :=
  claim_C8_black_idempotent testImg [testDet] constBlur (by decide)

/-- Claim C9, counterexample. The claim states the per-page log entry has
a field named `page_tag`; the dict built by `process_one_pil` has fields
`file, detections, redacted, mode, timestamp, page` — the page tag is
stored under the key `page`, and no `page_tag` field exists. -/
theorem claim_C9_counterexample :
    (process_one_pil_model testImg [] [] "blur" "doc.png" "(p1)" "20240101T000000"
        constBlur).2.map Prod.fst =
      ["file", "detections", "redacted", "mode", "timestamp", "page"] ∧
    "page_tag" ∉ (process_one_pil_model testImg [] [] "blur" "doc.png" "(p1)"
        "20240101T000000" constBlur).2.map Prod.fst := by
  constructor
  · rfl
  · decide

/-- Claim C9, amended: each per-page log entry is a record with exactly
the fields `file` (string), `detections` (list of findings), `redacted`
(list of findings), `mode` (the selected redaction mode string), `timestamp`
(string) and `page` (string, carrying the page tag) — in that order, built
once per page from the merged detections and the selection. -/
theorem claim_C9_amended (pil : RawImg) (lines : List Line) (visual : List Finding)
    (mode name page_tag ts : String) (g : GBlur) :
    (process_one_pil_model pil lines visual mode name page_tag ts g).2 =
      [("file", LogVal.str name),
       ("detections", LogVal.finds (selected_boxes_model lines visual)),
       ("redacted", LogVal.finds (selected_boxes_model lines visual)),
       ("mode", LogVal.str mode),
       ("timestamp", LogVal.str ts),
       ("page", LogVal.str page_tag)] := rfl

/-- Any mode string other than `"black"` selects the blur branch of the
per-detection redaction step. -/
theorem redactStep_mode_ne_black (mode : String) (g : GBlur) (H W : Nat)
    (h : mode ≠ "black") :
    redactStep mode g H W = redactStep "blur" g H W := by
  funext pix det
  simp only [redactStep]
  by_cases hd : det.box.w = 0 ∨ det.box.h = 0
  · simp only [if_pos hd]
  · simp only [if_neg hd, if_neg h,
      if_neg (show ¬ ("blur" : String) = "black" from by decide)]

/-- Claim C10: `apply_redactions_cv` applies the solid black fill only when
the mode argument is exactly the string "black"; for every other mode value
the behaviour is identical to blur mode — each selected non-degenerate
region is Gaussian-blurred, no solid fill is applied, and no error is
raised. -/
theorem claim_C10_mode_default (cv_img : RawImg) (dets : List Finding)
    (mode : String) (g : GBlur) (h : mode ≠ "black") :
    apply_redactions_cv cv_img dets mode g = apply_redactions_cv cv_img dets "blur" g := by
  unfold apply_redactions_cv
  rw [redactStep_mode_ne_black mode g cv_img.H cv_img.W h]

/-- Claim C10, witness: the unrecognized mode "fill" behaves as blur. -/
theorem claim_C10_witness :
    apply_redactions_cv testImg [testDet] "fill" constBlur =
      apply_redactions_cv testImg [testDet] "blur" constBlur :=
  claim_C10_mode_default testImg [testDet] "fill" constBlur (by decide)
